import Mathlib

/-!
Verification of the municipality-reporter backend (report store, vote
ledger, urgency scorer, notification dispatcher, account eraser).

The development embeds three layers of the source:
* the Firebase Cloud Functions (`computeUrgency`, `voteReport`,
  `notifyOnStatusChange`, `deleteAccountData`) operating on a
  Firestore-like state;
* the in-memory mock store of `apps/mobile/src/services/reports.ts`
  (`mockReports`, `mockVotes`, `createReport`, `voteReport`,
  `updateReportStatus`);
* the Firestore security rules (authorization for report updates).
-/

namespace Municipality

/-- Report status enum: `"new" | "in_progress" | "resolved"`. -/
inductive Status
  | new
  | in_progress
  | resolved
deriving DecidableEq

/-!
## Urgency scorer (Cloud Function `computeUrgency`, also inlined in `voteReport`)

```js
const baseScore = 50;
const upvoteBonus = Math.log10(data.upvotes + 1) * 20;
const aiScore = Math.min(100, baseScore + upvoteBonus);
```
-/

/-- Urgency score as a function of the vote count, from the
`computeUrgency` Cloud Function. `Math.log10` is modelled by the
real-valued base-10 logarithm. -/
noncomputable def computeUrgency (upvotes : ℕ) : ℝ :=
  min 100 (50 + Real.logb 10 (upvotes + 1) * 20)

theorem one_le_upvotes_real (v : ℕ) : (1 : ℝ) ≤ (v : ℝ) + 1 := by
  have : (0 : ℝ) ≤ (v : ℝ) := Nat.cast_nonneg v
  linarith

/-- C1: the urgency score is `min(100, 50 + 20·log10(v+1))`; it is `50`
at `v = 0`, exactly `70` at `v = 9`, non-decreasing in `v`, and bounded
in `[50, 100]`. -/
theorem computeUrgency_spec :
    computeUrgency 0 = 50 ∧
    computeUrgency 9 = 70 ∧
    (∀ v w : ℕ, v ≤ w → computeUrgency v ≤ computeUrgency w) ∧
    (∀ v : ℕ, 50 ≤ computeUrgency v ∧ computeUrgency v ≤ 100) := by
  have hb : (1 : ℝ) < 10 := by norm_num
  refine ⟨?_, ?_, ?_, ?_⟩
  · rw [computeUrgency]
    norm_num [Real.logb_one]
  · have h10 : ((9 : ℕ) : ℝ) + 1 = 10 := by norm_num
    have hlog : Real.logb 10 (((9 : ℕ) : ℝ) + 1) = 1 := by
      rw [h10]; exact Real.logb_self_eq_one hb
    rw [computeUrgency, hlog]
    norm_num
  · intro v w hvw
    have hx : (0 : ℝ) < (v : ℝ) + 1 := by
      have := one_le_upvotes_real v; linarith
    have hxy : (v : ℝ) + 1 ≤ (w : ℝ) + 1 := by
      have : (v : ℝ) ≤ (w : ℝ) := Nat.cast_le.mpr hvw
      linarith
    have hlog := Real.logb_le_logb_of_le hb hx hxy
    unfold computeUrgency
    have : 50 + Real.logb 10 ((v : ℝ) + 1) * 20 ≤
        50 + Real.logb 10 ((w : ℝ) + 1) * 20 := by linarith
    exact min_le_min le_rfl this
  · intro v
    have hnn : 0 ≤ Real.logb 10 ((v : ℝ) + 1) :=
      Real.logb_nonneg hb (one_le_upvotes_real v)
    constructor
    · refine le_min (by norm_num) ?_
      linarith
    · exact min_le_left _ _

/-- Witness for C1: the monotonicity clause at the concrete pair `0 ≤ 9`. -/
theorem computeUrgency_spec_witness :
    computeUrgency 0 ≤ computeUrgency 9 :=
  computeUrgency_spec.2.2.1 0 9 (by decide)

/-!
## Vote ledger (callable Cloud Function `voteReport`)

The function reads the report document and the caller's `userVotes`
document, performs its checks on those snapshots, and then writes the
updates.  We embed it as a read/check phase (`votePhase1`) followed by a
write phase (`votePhase2`); the sequential function `voteReport` is
their composition.  `FieldValue.increment(1)` is a relative update (it
adds one to the stored value at write time); the `voters` array and the
recomputed `aiScore` are absolute values derived from the snapshot.
-/

/-- Error kinds raised by the callable Cloud Functions
(`HttpsError` codes `not-found`, `permission-denied`, `already-exists`,
`resource-exhausted`). -/
inductive VErr
  | notFound
  | permissionDenied
  | alreadyVoted
  | rateLimited
deriving DecidableEq

/-- A document of the `reports` collection (README data model and the
fields touched by the Cloud Functions). Timestamps are milliseconds. -/
structure CReport where
  id : String
  authorId : String
  description : String
  isPublic : Bool
  upvotes : ℕ
  voters : List String
  aiScore : ℝ
  status : Status
  createdAt : ℕ
  updatedAt : ℕ

/-- Backend state seen by the Cloud Functions: the `reports` collection
and the per-user `userVotes` documents (`lastVoteTime` in ms). -/
structure CState where
  reports : List CReport
  userVotes : List (String × ℕ)

/-- Fetch a report document by id (`db.collection('reports').doc(id).get()`). -/
def findReport (rs : List CReport) (rid : String) : Option CReport :=
  rs.find? (fun r => r.id == rid)

/-- Read a user's `lastVoteTime` from the `userVotes` collection. -/
def lookupLastVote (l : List (String × ℕ)) (uid : String) : Option ℕ :=
  (l.find? (fun p => p.1 == uid)).map (·.2)

/-- Overwrite a user's `userVotes` document (`userVotesRef.set(...)`). -/
def setLastVote (l : List (String × ℕ)) (uid : String) (t : ℕ) : List (String × ℕ) :=
  (uid, t) :: l.filter (fun p => p.1 ≠ uid)

/-- Data captured by the read/check phase of `voteReport`: the target
ids and the snapshot of the report's `upvotes` and `voters`. -/
structure PendingVote where
  reportId : String
  userId : String
  snapshotUpvotes : ℕ
  snapshotVoters : List String
  now : ℕ

/-- Read/check phase of `voteReport`: fetch the report, reject when it
is absent, private, already voted by the caller, or when the caller's
last successful vote is less than 60000 ms old. -/
def votePhase1 (s : CState) (reportId userId : String) (now : ℕ) :
    Except VErr PendingVote :=
  match findReport s.reports reportId with
  | none => .error .notFound
  | some r =>
    if r.isPublic = false then .error .permissionDenied
    else if userId ∈ r.voters then .error .alreadyVoted
    else
      match lookupLastVote s.userVotes userId with
      | some t =>
        if now - t < 60000 then .error .rateLimited
        else .ok ⟨reportId, userId, r.upvotes, r.voters, now⟩
      | none => .ok ⟨reportId, userId, r.upvotes, r.voters, now⟩

/-- Write phase of `voteReport`: increment `upvotes` on the stored
document, overwrite `voters` with the snapshot plus the caller,
recompute `aiScore` from the snapshot count plus one, and set the
caller's `lastVoteTime`. -/
noncomputable def votePhase2 (s : CState) (p : PendingVote) : CState :=
  { reports := s.reports.map (fun x =>
      if x.id == p.reportId then
        { x with
          upvotes := x.upvotes + 1,
          voters := p.snapshotVoters ++ [p.userId],
          updatedAt := p.now,
          aiScore := computeUrgency (p.snapshotUpvotes + 1) }
      else x),
    userVotes := setLastVote s.userVotes p.userId p.now }

/-- The sequential `voteReport` Cloud Function: checks against the
current state, then writes against the same state. -/
noncomputable def voteReport (s : CState) (reportId userId : String) (now : ℕ) :
    Except VErr CState :=
  (votePhase1 s reportId userId now).map (votePhase2 s)

theorem find?_map_update (rs : List CReport) (rid : String) (f : CReport → CReport)
    (hf : ∀ x, (f x).id = x.id) :
    (rs.map (fun x => if x.id == rid then f x else x)).find? (fun x => x.id == rid) =
      (rs.find? (fun x => x.id == rid)).map f := by
  induction rs with
  | nil => rfl
  | cons a tl ih =>
    rw [List.map_cons]
    by_cases ha : (a.id == rid) = true
    · have hifa : (if (a.id == rid) = true then f a else a) = f a := if_pos ha
      rw [hifa,
        List.find?_cons_of_pos (p := fun (x : CReport) => x.id == rid) _
          (show ((f a).id == rid) = true by rw [hf a]; exact ha),
        List.find?_cons_of_pos (p := fun (x : CReport) => x.id == rid) _ ha]
      rfl
    · have hifa : (if (a.id == rid) = true then f a else a) = a := if_neg ha
      rw [hifa, List.find?_cons_of_neg (p := fun (x : CReport) => x.id == rid) _ ha,
        List.find?_cons_of_neg (p := fun (x : CReport) => x.id == rid) _ ha]
      exact ih

theorem lookupLastVote_setLastVote (l : List (String × ℕ)) (uid : String) (t : ℕ) :
    lookupLastVote (setLastVote l uid t) uid = some t := by
  simp [lookupLastVote, setLastVote, List.find?]

theorem findReport_votePhase2 (s : CState) (p : PendingVote) :
    findReport (votePhase2 s p).reports p.reportId =
      (findReport s.reports p.reportId).map (fun x =>
        { x with
          upvotes := x.upvotes + 1,
          voters := p.snapshotVoters ++ [p.userId],
          updatedAt := p.now,
          aiScore := computeUrgency (p.snapshotUpvotes + 1) }) := by
  unfold findReport votePhase2
  exact find?_map_update _ _ _ (fun x => rfl)

theorem votePhase1_ok_inv {s : CState} {rid uid : String} {now : ℕ}
    {p : PendingVote} (h : votePhase1 s rid uid now = .ok p) :
    ∃ r, findReport s.reports rid = some r ∧ r.isPublic = true ∧
      uid ∉ r.voters ∧ p = ⟨rid, uid, r.upvotes, r.voters, now⟩ := by
  unfold votePhase1 at h
  split at h
  · cases h
  next r hf =>
    refine ⟨r, hf, ?_⟩
    split at h
    · cases h
    next hpub =>
      have hpub' : r.isPublic = true := by
        revert hpub; cases r.isPublic <;> simp
      refine ⟨hpub', ?_⟩
      split at h
      · cases h
      next hmem =>
        refine ⟨hmem, ?_⟩
        split at h
        next t hl =>
          split at h
          · cases h
          · cases h; rfl
        next hl => cases h; rfl

/-- C2: `vote(reportId, userId)` fails with `NotFound` when the report
is absent, `PermissionDenied` when it is not public, `AlreadyVoted`
when the pair is already recorded, `RateLimited` when the caller's last
successful vote is less than 60 seconds old, and succeeds otherwise (in
particular when 60 or more seconds have elapsed, or when the caller has
never voted). -/
theorem voteReport_error_cases (s : CState) (rid uid : String) (now : ℕ) :
    (findReport s.reports rid = none → voteReport s rid uid now = .error .notFound) ∧
    (∀ r, findReport s.reports rid = some r →
      (r.isPublic = false → voteReport s rid uid now = .error .permissionDenied) ∧
      (r.isPublic = true → uid ∈ r.voters →
        voteReport s rid uid now = .error .alreadyVoted) ∧
      (r.isPublic = true → uid ∉ r.voters →
        (∀ t, lookupLastVote s.userVotes uid = some t → now - t < 60000 →
          voteReport s rid uid now = .error .rateLimited) ∧
        (∀ t, lookupLastVote s.userVotes uid = some t → 60000 ≤ now - t →
          ∃ s', voteReport s rid uid now = .ok s') ∧
        (lookupLastVote s.userVotes uid = none →
          ∃ s', voteReport s rid uid now = .ok s'))) := by
  constructor
  · intro h
    simp [voteReport, votePhase1, Except.map, h]
  · intro r hr
    refine ⟨?_, ?_, ?_⟩
    · intro hpub
      simp [voteReport, votePhase1, Except.map, hr, hpub]
    · intro hpub hmem
      simp [voteReport, votePhase1, Except.map, hr, hpub, hmem]
    · intro hpub hmem
      refine ⟨?_, ?_, ?_⟩
      · intro t ht hlt
        simp [voteReport, votePhase1, Except.map, hr, hpub, hmem, ht, hlt]
      · intro t ht hge
        have hnlt : ¬(now - t < 60000) := Nat.not_lt.mpr hge
        exact ⟨votePhase2 s ⟨rid, uid, r.upvotes, r.voters, now⟩,
          by simp [voteReport, votePhase1, Except.map, hr, hpub, hmem, ht, hnlt]⟩
      · intro hnone
        exact ⟨votePhase2 s ⟨rid, uid, r.upvotes, r.voters, now⟩,
          by simp [voteReport, votePhase1, Except.map, hr, hpub, hmem, hnone]⟩

/-- Sample public report used in concrete witnesses. -/
noncomputable def sampleReportPublic : CReport :=
  { id := "1", authorId := "author1", description := "Broken street light",
    isPublic := true, upvotes := 0, voters := [], aiScore := 50,
    status := .new, createdAt := 0, updatedAt := 0 }

/-- Sample private report used in concrete witnesses. -/
noncomputable def sampleReportPrivate : CReport :=
  { id := "2", authorId := "author2", description := "Pothole",
    isPublic := false, upvotes := 0, voters := [], aiScore := 50,
    status := .new, createdAt := 0, updatedAt := 0 }

/-- Sample public report already voted by user `u`. -/
noncomputable def sampleReportVoted : CReport :=
  { id := "3", authorId := "author3", description := "Garbage bin",
    isPublic := true, upvotes := 1, voters := ["u"], aiScore := 56,
    status := .new, createdAt := 0, updatedAt := 0 }

/-- Sample backend state: three reports, and user `v` voted at t = 100000 ms. -/
noncomputable def sampleCState : CState :=
  { reports := [sampleReportPublic, sampleReportPrivate, sampleReportVoted],
    userVotes := [("v", 100000)] }

/-- Witness for C2: each of the five outcomes at a concrete state. -/
theorem voteReport_error_cases_witness :
    voteReport sampleCState "9" "u" 0 = .error .notFound ∧
    voteReport sampleCState "2" "u" 0 = .error .permissionDenied ∧
    voteReport sampleCState "3" "u" 0 = .error .alreadyVoted ∧
    voteReport sampleCState "1" "v" 100030 = .error .rateLimited ∧
    (∃ s', voteReport sampleCState "1" "v" 160000 = .ok s') ∧
    (∃ s', voteReport sampleCState "1" "u" 0 = .ok s') := by
  refine ⟨?_, ?_, ?_, ?_, ?_, ?_⟩
  · exact (voteReport_error_cases sampleCState "9" "u" 0).1 (by rfl)
  · exact ((voteReport_error_cases sampleCState "2" "u" 0).2
      sampleReportPrivate (by rfl)).1 (by rfl)
  · exact (((voteReport_error_cases sampleCState "3" "u" 0).2
      sampleReportVoted (by rfl)).2.1 (by rfl)
      (by simp [sampleReportVoted]))
  · exact ((((voteReport_error_cases sampleCState "1" "v" 100030).2
      sampleReportPublic (by rfl)).2.2 (by rfl)
      (by simp [sampleReportPublic])).1 100000 (by rfl) (by norm_num))
  · exact ((((voteReport_error_cases sampleCState "1" "v" 160000).2
      sampleReportPublic (by rfl)).2.2 (by rfl)
      (by simp [sampleReportPublic])).2.1 100000 (by rfl) (by norm_num))
  · exact ((((voteReport_error_cases sampleCState "1" "u" 0).2
      sampleReportPublic (by rfl)).2.2 (by rfl)
      (by simp [sampleReportPublic])).2.2 (by rfl))

/-- C3: a successful `vote(reportId, userId)` records the vote,
increments the report's vote count by exactly one, recomputes the
urgency score from the new vote count, and sets the caller's rate-limit
timestamp to the time of the vote. -/
theorem voteReport_success_effects (s : CState) (rid uid : String) (now : ℕ)
    (s' : CState) (h : voteReport s rid uid now = .ok s') :
    ∃ r r', findReport s.reports rid = some r ∧ uid ∉ r.voters ∧
      findReport s'.reports rid = some r' ∧
      r'.upvotes = r.upvotes + 1 ∧
      uid ∈ r'.voters ∧
      r'.aiScore = computeUrgency (r.upvotes + 1) ∧
      lookupLastVote s'.userVotes uid = some now := by
  unfold voteReport at h
  cases hp : votePhase1 s rid uid now with
  | error e => rw [hp] at h; cases h
  | ok p =>
    rw [hp] at h
    obtain ⟨r, hr, _, hnmem, hpeq⟩ := votePhase1_ok_inv hp
    have h2 : Except.ok (votePhase2 s p) = Except.ok s' := h
    injection h2 with h3
    subst h3
    subst hpeq
    have hfind := findReport_votePhase2 s ⟨rid, uid, r.upvotes, r.voters, now⟩
    simp only at hfind
    rw [hr] at hfind
    refine ⟨r, _, hr, hnmem, hfind, rfl, ?_, rfl, ?_⟩
    · exact List.mem_append_right _ (by simp)
    · exact lookupLastVote_setLastVote _ _ _

/-- Witness for C3: a concrete successful vote on the sample state. -/
theorem voteReport_success_effects_witness :
    ∃ r r', findReport sampleCState.reports "1" = some r ∧ "u" ∉ r.voters ∧
      findReport (votePhase2 sampleCState ⟨"1", "u", 0, [], 0⟩).reports "1" = some r' ∧
      r'.upvotes = r.upvotes + 1 ∧
      "u" ∈ r'.voters ∧
      r'.aiScore = computeUrgency (r.upvotes + 1) ∧
      lookupLastVote (votePhase2 sampleCState ⟨"1", "u", 0, [], 0⟩).userVotes "u" =
        some 0 :=
  voteReport_success_effects sampleCState "1" "u" 0 _ (by rfl)

/-!
## Concurrency of `voteReport` (C6)

The Cloud Function performs `reportRef.get()` followed by checks on the
snapshot and then `reportRef.update(...)` — a read-then-write sequence
with no transaction and no uniqueness constraint on the
(reportId, userId) pair.  `twoVotesBothReadFirst` is the interleaving of
two calls in which both read/check phases run against the initial state
before either write phase commits.
-/

/-- Interleaving of two `voteReport` calls for the same
`(reportId, userId)` pair where both Firestore reads happen before
either write: each call's observable outcome together with the final
state. -/
noncomputable def twoVotesBothReadFirst (s : CState) (rid uid : String) (now : ℕ) :
    Except VErr Unit × Except VErr Unit × CState :=
  match votePhase1 s rid uid now, votePhase1 s rid uid now with
  | .ok p₁, .ok p₂ => (.ok (), .ok (), votePhase2 (votePhase2 s p₁) p₂)
  | .ok p₁, .error e₂ => (.ok (), .error e₂, votePhase2 s p₁)
  | .error e₁, .ok p₂ => (.error e₁, .ok (), votePhase2 s p₂)
  | .error e₁, .error e₂ => (.error e₁, .error e₂, s)

/-- C6 counterexample: with the duplicate check implemented as a
read-then-write sequence, two concurrent `vote` calls for the same
`(reportId, userId)` pair can both succeed when both reads precede both
writes; the final document then holds `upvotes = 2` with a single
recorded voter. -/
theorem voteReport_concurrent_both_succeed :
    (twoVotesBothReadFirst sampleCState "1" "u" 0).1 = .ok () ∧
    (twoVotesBothReadFirst sampleCState "1" "u" 0).2.1 = .ok () ∧
    (findReport (twoVotesBothReadFirst sampleCState "1" "u" 0).2.2.reports "1").map
        (fun r => (r.upvotes, r.voters)) = some (2, ["u"]) :=
  ⟨rfl, rfl, rfl⟩

/-- C6 amended: the duplicate check and the vote-count increment are a
non-atomic read-then-write sequence, so two concurrent calls for the
same pair can both succeed; when the two calls run sequentially, the
second always fails with `AlreadyVoted`. -/
theorem voteReport_sequential_second_fails (s : CState) (rid uid : String)
    (now now' : ℕ) (s' : CState) (h : voteReport s rid uid now = .ok s') :
    voteReport s' rid uid now' = .error .alreadyVoted := by
  unfold voteReport at h
  cases hp : votePhase1 s rid uid now with
  | error e => rw [hp] at h; cases h
  | ok p =>
    rw [hp] at h
    obtain ⟨r, hr, hpub, _, hpeq⟩ := votePhase1_ok_inv hp
    have h2 : Except.ok (votePhase2 s p) = Except.ok s' := h
    injection h2 with h3
    subst h3
    subst hpeq
    have hfind := findReport_votePhase2 s ⟨rid, uid, r.upvotes, r.voters, now⟩
    simp only at hfind
    rw [hr] at hfind
    unfold voteReport votePhase1
    rw [show findReport (votePhase2 s ⟨rid, uid, r.upvotes, r.voters, now⟩).reports rid =
        some { r with
          upvotes := r.upvotes + 1,
          voters := r.voters ++ [uid],
          updatedAt := now,
          aiScore := computeUrgency (r.upvotes + 1) } from hfind]
    have hmem' : uid ∈ r.voters ++ [uid] := List.mem_append_right _ (by simp)
    simp [Except.map, hpub, hmem']

/-- Witness for the amended C6 theorem: the concrete sequential pair of
votes on the sample state. -/
theorem voteReport_sequential_second_fails_witness :
    voteReport (votePhase2 sampleCState ⟨"1", "u", 0, [], 0⟩) "1" "u" 100000 =
      .error .alreadyVoted :=
  voteReport_sequential_second_fails sampleCState "1" "u" 0 100000 _ (by rfl)

/-!
## Notification dispatcher (Cloud Function `notifyOnStatusChange`)

Triggered on report update; returns early when the status did not
change.  Recipients are collected into a JS `Set` seeded with the
author and extended with the voters (insertion order, first occurrence
kept); for each recipient whose user document exists and has a
`pushToken`, one notification carrying the report id and the new status
is sent via `sendMulticast`.
-/

/-- User documents as seen by the dispatcher: uid paired with the
optional `pushToken` field. `lookupUser` is `none` when the document
does not exist. -/
def lookupUser (users : List (String × Option String)) (uid : String) :
    Option (Option String) :=
  (users.find? (fun p => p.1 == uid)).map (·.2)

/-- Push token of a user, when the document exists and has one. -/
def userToken (users : List (String × Option String)) (uid : String) :
    Option String :=
  (lookupUser users uid).join

/-- Insertion-order deduplication, as performed by a JS `Set`. -/
def dedupFirst : List String → List String
  | [] => []
  | u :: rest => u :: dedupFirst (rest.filter (fun v => v ≠ u))
termination_by l => l.length
decreasing_by
  simp only [List.length_cons]
  exact Nat.lt_succ_of_le (List.length_filter_le _ _)

theorem mem_dedupFirst (x : String) : ∀ l : List String, x ∈ dedupFirst l ↔ x ∈ l
  | [] => by rw [dedupFirst]
  | u :: rest => by
    rw [dedupFirst]
    by_cases hx : x = u
    · subst hx; simp
    · simp only [List.mem_cons, hx, false_or]
      rw [mem_dedupFirst x (rest.filter (fun v => v ≠ u))]
      simp [List.mem_filter, hx]
termination_by l => l.length
decreasing_by
  simp only [List.length_cons]
  exact Nat.lt_succ_of_le (List.length_filter_le _ _)

theorem nodup_dedupFirst : ∀ l : List String, (dedupFirst l).Nodup
  | [] => by rw [dedupFirst]; exact List.nodup_nil
  | u :: rest => by
    rw [dedupFirst]
    refine List.nodup_cons.mpr ⟨?_, nodup_dedupFirst (rest.filter (fun v => v ≠ u))⟩
    intro hmem
    rw [mem_dedupFirst] at hmem
    simp [List.mem_filter] at hmem
termination_by l => l.length
decreasing_by
  simp only [List.length_cons]
  exact Nat.lt_succ_of_le (List.length_filter_le _ _)

/-- A push message: the target token, with the report id and new status
in the data payload. -/
structure Notif where
  token : String
  reportId : String
  status : Status
deriving DecidableEq

/-- The `notifyOnStatusChange` Cloud Function, as the list of push
messages it sends. -/
def notifyOnStatusChange (users : List (String × Option String))
    (before after : CReport) (rid : String) : List Notif :=
  if before.status = after.status then []
  else
    (dedupFirst (after.authorId :: after.voters)).filterMap
      (fun u => (userToken users u).map (fun t => ⟨t, rid, after.status⟩))

theorem length_filterMap_optMap (g : String → Option String) (h : String → Notif)
    (l : List String) :
    (l.filterMap (fun u => (g u).map h)).length =
      (l.filter (fun u => (g u).isSome)).length := by
  induction l with
  | nil => rfl
  | cons a tl ih =>
    cases hg : g a <;> simp [List.filterMap_cons, hg, ih, List.filter_cons]

/-- C8: a notification fan-out happens exactly when the status changed;
every message carries the report id and the new status; every recipient
(author or voter) with a stored push token has their token among the
sent messages; and the number of messages equals the number of distinct
recipients that have a stored push token (recipients without a token
are skipped). -/
theorem notifyOnStatusChange_spec (users : List (String × Option String))
    (before after : CReport) (rid : String) :
    (before.status = after.status → notifyOnStatusChange users before after rid = []) ∧
    (before.status ≠ after.status →
      (∀ n ∈ notifyOnStatusChange users before after rid,
        n.reportId = rid ∧ n.status = after.status) ∧
      (∀ u t, (u = after.authorId ∨ u ∈ after.voters) →
        userToken users u = some t →
        t ∈ (notifyOnStatusChange users before after rid).map (fun n => n.token)) ∧
      (notifyOnStatusChange users before after rid).length =
        ((insert after.authorId after.voters.toFinset).filter
          (fun u => (userToken users u).isSome = true)).card) := by
  constructor
  · intro h
    simp [notifyOnStatusChange, h]
  · intro h
    refine ⟨?_, ?_, ?_⟩
    · intro n hn
      rw [notifyOnStatusChange, if_neg h] at hn
      obtain ⟨u, _, hu⟩ := List.mem_filterMap.mp hn
      cases ht : userToken users u with
      | none => rw [ht] at hu; cases hu
      | some t =>
        rw [ht] at hu
        injection hu with hu
        subst hu
        exact ⟨rfl, rfl⟩
    · intro u t hrecip ht
      rw [notifyOnStatusChange, if_neg h]
      refine List.mem_map.mpr ⟨⟨t, rid, after.status⟩, ?_, rfl⟩
      refine List.mem_filterMap.mpr ⟨u, ?_, by rw [ht]; rfl⟩
      rw [mem_dedupFirst]
      rcases hrecip with h1 | h1
      · exact h1 ▸ List.mem_cons_self _ _
      · exact List.mem_cons_of_mem _ h1
    · rw [notifyOnStatusChange, if_neg h]
      rw [length_filterMap_optMap (fun u => userToken users u) _ _]
      have hnd : ((dedupFirst (after.authorId :: after.voters)).filter
          (fun u => (userToken users u).isSome)).Nodup :=
        (nodup_dedupFirst _).filter _
      rw [← List.toFinset_card_of_nodup hnd]
      congr 1
      ext x
      simp only [List.mem_toFinset, List.mem_filter, Finset.mem_filter,
        Finset.mem_insert, mem_dedupFirst, List.mem_cons, decide_eq_true_eq]

/-- Sample report after a status update: same document id `1`, author
`author1`, voters `u` and `w`, status moved to `in_progress`. -/
noncomputable def sampleAfter : CReport :=
  { id := "1", authorId := "author1", description := "Broken street light",
    isPublic := true, upvotes := 2, voters := ["u", "w"], aiScore := 59,
    status := .in_progress, createdAt := 0, updatedAt := 0 }

/-- Sample user documents: the author and voter `w` own push tokens,
voter `u` has none. -/
def sampleUsers : List (String × Option String) :=
  [("author1", some "tokA"), ("u", none), ("w", some "tokW")]

/-- Witness for C8: on the sample update the author's token receives a
message, and exactly two messages are sent (voter `u` has no token). -/
theorem notifyOnStatusChange_spec_witness :
    "tokA" ∈ (notifyOnStatusChange sampleUsers sampleReportPublic sampleAfter "1").map
        (fun n => n.token) ∧
    (notifyOnStatusChange sampleUsers sampleReportPublic sampleAfter "1").length =
      ((insert sampleAfter.authorId sampleAfter.voters.toFinset).filter
        (fun u => (userToken sampleUsers u).isSome = true)).card := by
  have h := (notifyOnStatusChange_spec sampleUsers sampleReportPublic sampleAfter "1").2
    (by decide)
  exact ⟨(h.2.1) "author1" "tokA" (Or.inl rfl) (by rfl), h.2.2⟩

/-!
## Account eraser (Cloud Function `deleteAccountData`)

The function batch-deletes all reports authored by the caller, the
caller's `users` document and `userVotes` document, then deletes the
storage objects under the prefix `reports/<userId>/`, and deletes the
Firebase Auth user last.  We model it as an ordered list of primitive
deletion actions folded over the global state; object paths are lists
of segments.
-/

/-- Global backend state for account deletion: Firestore collections,
storage object paths (segment lists), and the Firebase Auth users. -/
structure GState where
  reports : List CReport
  users : List (String × Option String)
  userVotes : List (String × ℕ)
  storage : List (List String)
  authUsers : List String

/-- Primitive deletion actions issued by `deleteAccountData`. -/
inductive DelAction
  | deleteReportDoc (rid : String)
  | deleteUserDoc (uid : String)
  | deleteUserVotesDoc (uid : String)
  | deleteObject (path : List String)
  | deleteAuthUser (uid : String)
deriving DecidableEq

/-- Effect of one deletion action on the global state. -/
def applyDelAction (s : GState) : DelAction → GState
  | .deleteReportDoc rid => { s with reports := s.reports.filter (fun r => r.id ≠ rid) }
  | .deleteUserDoc uid => { s with users := s.users.filter (fun p => p.1 ≠ uid) }
  | .deleteUserVotesDoc uid =>
      { s with userVotes := s.userVotes.filter (fun p => p.1 ≠ uid) }
  | .deleteObject path => { s with storage := s.storage.filter (fun q => q ≠ path) }
  | .deleteAuthUser uid => { s with authUsers := s.authUsers.filter (fun v => v ≠ uid) }

/-- The ordered deletions performed by `deleteAccountData(uid)`: the
batch (authored reports, user document, `userVotes` document), then the
storage objects under `reports/<uid>/`, then the Auth user last. -/
def deleteAccountSteps (s : GState) (uid : String) : List DelAction :=
  ((s.reports.filter (fun r => r.authorId == uid)).map (fun r => .deleteReportDoc r.id)) ++
    [.deleteUserDoc uid, .deleteUserVotesDoc uid] ++
    ((s.storage.filter (fun q => q.take 2 = ["reports", uid])).map .deleteObject) ++
    [.deleteAuthUser uid]

/-- The `deleteAccountData` Cloud Function: fold the deletion steps
over the state. -/
def deleteAccountData (s : GState) (uid : String) : GState :=
  (deleteAccountSteps s uid).foldl applyDelAction s

/-- Insert a report into a list sorted by `createdAt` descending. -/
def insertByCreatedDesc (r : CReport) : List CReport → List CReport
  | [] => [r]
  | x :: xs =>
    if x.createdAt ≤ r.createdAt then r :: x :: xs
    else x :: insertByCreatedDesc r xs

/-- Sort reports by creation time descending. -/
def sortByCreatedDesc : List CReport → List CReport
  | [] => []
  | x :: xs => insertByCreatedDesc x (sortByCreatedDesc xs)

/-- The `listByAuthor` operation (the mock service's `getUserReports`):
the author's reports ordered by creation time descending. -/
def listByAuthor (s : GState) (uid : String) : List CReport :=
  sortByCreatedDesc (s.reports.filter (fun r => r.authorId == uid))

theorem foldl_del_reports (steps : List DelAction) (s : GState) :
    (steps.foldl applyDelAction s).reports =
      s.reports.filter (fun r => decide (DelAction.deleteReportDoc r.id ∉ steps)) := by
  induction steps generalizing s with
  | nil => simp
  | cons a rest ih =>
    rw [List.foldl_cons, ih]
    have hstep : (applyDelAction s a).reports =
        s.reports.filter (fun r => decide (¬DelAction.deleteReportDoc r.id = a)) := by
      cases a <;> simp only [applyDelAction] <;>
        first
          | exact List.filter_congr (fun r _ => by simp)
          | exact (List.filter_true _).symm.trans
              (List.filter_congr (fun r _ => by simp))
    rw [hstep, List.filter_filter]
    exact List.filter_congr (fun r _ => by
      simp [List.mem_cons, not_or, Bool.decide_and, Bool.and_comm])

theorem foldl_del_users (steps : List DelAction) (s : GState) :
    (steps.foldl applyDelAction s).users =
      s.users.filter (fun p => decide (DelAction.deleteUserDoc p.1 ∉ steps)) := by
  induction steps generalizing s with
  | nil => simp
  | cons a rest ih =>
    rw [List.foldl_cons, ih]
    have hstep : (applyDelAction s a).users =
        s.users.filter (fun p => decide (¬DelAction.deleteUserDoc p.1 = a)) := by
      cases a <;> simp only [applyDelAction] <;>
        first
          | exact List.filter_congr (fun p _ => by simp)
          | exact (List.filter_true _).symm.trans
              (List.filter_congr (fun p _ => by simp))
    rw [hstep, List.filter_filter]
    exact List.filter_congr (fun p _ => by
      simp [List.mem_cons, not_or, Bool.decide_and, Bool.and_comm])

theorem foldl_del_userVotes (steps : List DelAction) (s : GState) :
    (steps.foldl applyDelAction s).userVotes =
      s.userVotes.filter (fun p => decide (DelAction.deleteUserVotesDoc p.1 ∉ steps)) := by
  induction steps generalizing s with
  | nil => simp
  | cons a rest ih =>
    rw [List.foldl_cons, ih]
    have hstep : (applyDelAction s a).userVotes =
        s.userVotes.filter (fun p => decide (¬DelAction.deleteUserVotesDoc p.1 = a)) := by
      cases a <;> simp only [applyDelAction] <;>
        first
          | exact List.filter_congr (fun p _ => by simp)
          | exact (List.filter_true _).symm.trans
              (List.filter_congr (fun p _ => by simp))
    rw [hstep, List.filter_filter]
    exact List.filter_congr (fun p _ => by
      simp [List.mem_cons, not_or, Bool.decide_and, Bool.and_comm])

theorem foldl_del_storage (steps : List DelAction) (s : GState) :
    (steps.foldl applyDelAction s).storage =
      s.storage.filter (fun q => decide (DelAction.deleteObject q ∉ steps)) := by
  induction steps generalizing s with
  | nil => simp
  | cons a rest ih =>
    rw [List.foldl_cons, ih]
    have hstep : (applyDelAction s a).storage =
        s.storage.filter (fun q => decide (¬DelAction.deleteObject q = a)) := by
      cases a <;> simp only [applyDelAction] <;>
        first
          | exact List.filter_congr (fun q _ => by simp)
          | exact (List.filter_true _).symm.trans
              (List.filter_congr (fun q _ => by simp))
    rw [hstep, List.filter_filter]
    exact List.filter_congr (fun q _ => by
      simp [List.mem_cons, not_or, Bool.decide_and, Bool.and_comm])

theorem foldl_del_auth (steps : List DelAction) (s : GState) :
    (steps.foldl applyDelAction s).authUsers =
      s.authUsers.filter (fun v => decide (DelAction.deleteAuthUser v ∉ steps)) := by
  induction steps generalizing s with
  | nil => simp
  | cons a rest ih =>
    rw [List.foldl_cons, ih]
    have hstep : (applyDelAction s a).authUsers =
        s.authUsers.filter (fun v => decide (¬DelAction.deleteAuthUser v = a)) := by
      cases a <;> simp only [applyDelAction] <;>
        first
          | exact List.filter_congr (fun v _ => by simp)
          | exact (List.filter_true _).symm.trans
              (List.filter_congr (fun v _ => by simp))
    rw [hstep, List.filter_filter]
    exact List.filter_congr (fun v _ => by
      simp [List.mem_cons, not_or, Bool.decide_and, Bool.and_comm])

/-- C7: after `deleteAccountData(uid)` no report authored by the user
remains (`listByAuthor` is empty), the user's rate-limit record and
identity record are gone, no storage object under `reports/<uid>/`
remains, the Auth identity is gone (authentication fails), and the Auth
identity deletion is the last step of the sequence. -/
theorem deleteAccountData_spec (s : GState) (uid : String) :
    listByAuthor (deleteAccountData s uid) uid = [] ∧
    lookupUser (deleteAccountData s uid).users uid = none ∧
    lookupLastVote (deleteAccountData s uid).userVotes uid = none ∧
    (∀ q ∈ (deleteAccountData s uid).storage, q.take 2 ≠ ["reports", uid]) ∧
    uid ∉ (deleteAccountData s uid).authUsers ∧
    (deleteAccountSteps s uid).getLast? = some (.deleteAuthUser uid) := by
  refine ⟨?_, ?_, ?_, ?_, ?_, ?_⟩
  · unfold listByAuthor
    have hnil : (deleteAccountData s uid).reports.filter (fun r => r.authorId == uid)
        = [] := by
      rw [deleteAccountData, foldl_del_reports, List.filter_filter]
      apply List.filter_eq_nil_iff.mpr
      intro r hr hcon
      simp only [Bool.and_eq_true, decide_eq_true_eq] at hcon
      obtain ⟨hauth, hnotin⟩ := hcon
      apply hnotin
      unfold deleteAccountSteps
      exact List.mem_append_left _ (List.mem_append_left _ (List.mem_append_left _
        (List.mem_map_of_mem _ (List.mem_filter.mpr ⟨hr, hauth⟩))))
    rw [hnil]
    rfl
  · unfold lookupUser
    rw [deleteAccountData, foldl_del_users]
    rw [List.find?_eq_none.mpr ?_]
    · rfl
    · intro p hp hbeq
      obtain ⟨_, hsur⟩ := List.mem_filter.mp hp
      simp only [decide_eq_true_eq] at hsur
      apply hsur
      have : p.1 = uid := by simpa using hbeq
      rw [this]
      simp [deleteAccountSteps]
  · unfold lookupLastVote
    rw [deleteAccountData, foldl_del_userVotes]
    rw [List.find?_eq_none.mpr ?_]
    · rfl
    · intro p hp hbeq
      obtain ⟨_, hsur⟩ := List.mem_filter.mp hp
      simp only [decide_eq_true_eq] at hsur
      apply hsur
      have : p.1 = uid := by simpa using hbeq
      rw [this]
      simp [deleteAccountSteps]
  · intro q hq hpre
    rw [deleteAccountData, foldl_del_storage] at hq
    obtain ⟨hqs, hsur⟩ := List.mem_filter.mp hq
    simp only [decide_eq_true_eq] at hsur
    apply hsur
    unfold deleteAccountSteps
    refine List.mem_append_left _ (List.mem_append_right _ ?_)
    exact List.mem_map_of_mem _ (List.mem_filter.mpr ⟨hqs, by simpa using hpre⟩)
  · intro hmem
    rw [deleteAccountData, foldl_del_auth] at hmem
    obtain ⟨_, hsur⟩ := List.mem_filter.mp hmem
    simp only [decide_eq_true_eq] at hsur
    apply hsur
    simp [deleteAccountSteps]
  · unfold deleteAccountSteps
    exact List.getLast?_concat _

/-- Sample global state for account deletion: user `u1` authored two of
three reports, holds a rate-limit record, a user document, one storage
object under `reports/u1/`, and an Auth identity. -/
noncomputable def sampleGState : GState :=
  { reports := [
      { id := "r1", authorId := "u1", description := "a", isPublic := true,
        upvotes := 0, voters := [], aiScore := 50, status := .new,
        createdAt := 10, updatedAt := 10 },
      { id := "r2", authorId := "u1", description := "b", isPublic := true,
        upvotes := 0, voters := [], aiScore := 50, status := .new,
        createdAt := 20, updatedAt := 20 },
      { id := "r3", authorId := "u2", description := "c", isPublic := true,
        upvotes := 0, voters := [], aiScore := 50, status := .new,
        createdAt := 30, updatedAt := 30 }],
    users := [("u1", some "tok1"), ("u2", none)],
    userVotes := [("u1", 5)],
    storage := [["reports", "u1", "image-0.jpg"], ["reports", "u2", "a.jpg"]],
    authUsers := ["u1", "u2"] }

/-- Witness for C7: deletion of `u1` on the sample state, with the
storage clause instantiated at the surviving object of user `u2`. -/
theorem deleteAccountData_spec_witness :
    listByAuthor (deleteAccountData sampleGState "u1") "u1" = [] ∧
    lookupUser (deleteAccountData sampleGState "u1").users "u1" = none ∧
    lookupLastVote (deleteAccountData sampleGState "u1").userVotes "u1" = none ∧
    ["reports", "u2", "a.jpg"].take 2 ≠ ["reports", "u1"] ∧
    "u1" ∉ (deleteAccountData sampleGState "u1").authUsers ∧
    (deleteAccountSteps sampleGState "u1").getLast? =
      some (DelAction.deleteAuthUser "u1") := by
  have h := deleteAccountData_spec sampleGState "u1"
  exact ⟨h.1, h.2.1, h.2.2.1, h.2.2.2.1 _ (by decide), h.2.2.2.2.1, h.2.2.2.2.2⟩

/-!
## Mock in-memory store (`apps/mobile/src/services/reports.ts`)

The mobile service keeps a `mockReports` array seeded with three
reports and a `mockVotes` map from report id to a `Set` of user ids.
`createReport` pushes a new report with a random placeholder urgency
score (`Math.random() * 10`); the mock `voteReport` rejects duplicate
pairs and sets the report's vote count to the voter-set size;
`updateReportStatus` mutates the matching report and silently does
nothing for an unknown id.  JS numbers carrying only literal values are
modelled as rationals; the random draw and `Date.now()` are explicit
parameters.
-/

/-- Geographic coordinates. -/
structure Coords where
  latitude : ℚ
  longitude : ℚ
deriving DecidableEq

/-- A record of the mock store (the app's `Report` interface). -/
structure MReport where
  id : String
  userId : String
  description : String
  photoUrls : List String
  location : Coords
  addressText : String
  isPublic : Bool
  voteCount : ℕ
  urgencyScore : ℚ
  status : Status
  createdAt : ℕ
  updatedAt : ℕ
deriving DecidableEq

/-- The seeded `mockReports` array; `t0` is the module-load value of
`Date.now()` in ms. -/
def mockReports (t0 : ℕ) : List MReport :=
  [ { id := "1", userId := "test-user",
      description := "Broken street light on Flanatička Street",
      photoUrls := [], location := ⟨44.8666, 13.8496⟩,
      addressText := "Flanatička ulica, Pula", isPublic := true,
      voteCount := 12, urgencyScore := 7.5, status := .new,
      createdAt := t0 - 86400000, updatedAt := t0 - 86400000 },
    { id := "2", userId := "test-user",
      description := "Pothole on the road near the Arena",
      photoUrls := [], location := ⟨44.8733, 13.85⟩,
      addressText := "Pula Arena, Pula", isPublic := true,
      voteCount := 8, urgencyScore := 8.2, status := .in_progress,
      createdAt := t0 - 172800000, updatedAt := t0 - 86400000 },
    { id := "3", userId := "test-admin",
      description := "Garbage bin overflowing near the port",
      photoUrls := [], location := ⟨44.87, 13.84⟩,
      addressText := "Pula Port, Pula", isPublic := false,
      voteCount := 3, urgencyScore := 6.1, status := .resolved,
      createdAt := t0 - 259200000, updatedAt := t0 - 172800000 } ]

/-- State of the mock store: the reports array and the votes map
(report id to the list of users in its `Set`, insertion order). -/
structure MState where
  reports : List MReport
  votes : List (String × List String)
deriving DecidableEq

/-- The store as initialized at module load: the seeded reports and an
empty `mockVotes` map. -/
def initialMState (t0 : ℕ) : MState :=
  { reports := mockReports t0, votes := [] }

/-- Find a report by id (`mockReports.find(r => r.id === reportId)`). -/
def findMReport (rs : List MReport) (rid : String) : Option MReport :=
  rs.find? (fun r => r.id == rid)

/-- Voter set of a report (`mockVotes.get(reportId)`, empty when the
map has no entry). -/
def votersOf (votes : List (String × List String)) (rid : String) : List String :=
  ((votes.find? (fun p => p.1 == rid)).map (fun p => p.2)).getD []

/-- Store a report's voter set in the votes map. -/
def setVotes (votes : List (String × List String)) (rid : String)
    (vs : List String) : List (String × List String) :=
  (rid, vs) :: votes.filter (fun p => p.1 ≠ rid)

theorem votersOf_setVotes (votes : List (String × List String)) (rid : String)
    (vs : List String) : votersOf (setVotes votes rid vs) rid = vs := by
  simp [votersOf, setVotes, List.find?]

/-- The mock `createReport`: push a new report with status `new`, vote
count `0`, and the placeholder urgency score `Math.random() * 10` (the
random draw `rand` is passed explicitly); returns the new state and the
returned id `report-<Date.now()>`. -/
def createReport (s : MState) (description : String) (photoUrls : List String)
    (location : Coords) (addressText : String) (isPublic : Bool)
    (userId : String) (rand : ℚ) (now : ℕ) : MState × String :=
  let newReport : MReport :=
    { id := "report-" ++ toString now,
      userId := userId,
      description := description,
      photoUrls := photoUrls,
      location := location,
      addressText := addressText,
      isPublic := isPublic,
      voteCount := 0,
      urgencyScore := rand * 10,
      status := .new,
      createdAt := now,
      updatedAt := now }
  ({ s with reports := s.reports ++ [newReport] }, newReport.id)

/-- Error raised by the mock `voteReport`. -/
inductive MErr
  | alreadyVoted
deriving DecidableEq

/-- The mock `voteReport`: reject a duplicate (reportId, userId) pair;
otherwise add the user to the report's voter set and set the matching
report's vote count to the set's size (an unknown report id records the
vote without touching any report and without error). -/
def mockVoteReport (s : MState) (rid uid : String) : Except MErr MState :=
  let voters := votersOf s.votes rid
  if uid ∈ voters then .error .alreadyVoted
  else
    let voters' := voters ++ [uid]
    .ok { reports := s.reports.map (fun r =>
            if r.id == rid then { r with voteCount := voters'.length } else r),
          votes := setVotes s.votes rid voters' }

/-- The mock `updateReportStatus`: set status and `updatedAt` of the
matching report, if any; no permission check, no error for an unknown
id (the body has no throwing path). -/
def updateReportStatus (s : MState) (rid : String) (status : Status)
    (now : ℕ) : Except String MState :=
  .ok { s with reports := s.reports.map (fun r =>
          if r.id == rid then { r with status := status, updatedAt := now } else r) }

theorem find?_map_update_by {α : Type} (l : List α) (idf : α → String)
    (rid : String) (f : α → α) (hf : ∀ x, idf (f x) = idf x) :
    (l.map (fun x => if idf x == rid then f x else x)).find? (fun x => idf x == rid) =
      (l.find? (fun x => idf x == rid)).map f := by
  induction l with
  | nil => rfl
  | cons a tl ih =>
    rw [List.map_cons]
    by_cases ha : (idf a == rid) = true
    · have hifa : (if (idf a == rid) = true then f a else a) = f a := if_pos ha
      rw [hifa,
        List.find?_cons_of_pos (p := fun (x : α) => idf x == rid) _
          (show (idf (f a) == rid) = true by rw [hf a]; exact ha),
        List.find?_cons_of_pos (p := fun (x : α) => idf x == rid) _ ha]
      rfl
    · have hifa : (if (idf a == rid) = true then f a else a) = a := if_neg ha
      rw [hifa, List.find?_cons_of_neg (p := fun (x : α) => idf x == rid) _ ha,
        List.find?_cons_of_neg (p := fun (x : α) => idf x == rid) _ ha]
      exact ih

/-- C4 counterexample: in the initial mock store the seeded report `1`
has vote count 12 while its voter set is empty (12 ≠ 0), and
`createReport` derives the urgency score from the random draw alone, so
two creations with the same vote count 0 store different scores — the
score is not a deterministic function of the vote count. -/
theorem mock_invariant_counterexample :
    (findMReport (initialMState 259200000).reports "1").map (fun r => r.voteCount) =
      some 12 ∧
    (votersOf (initialMState 259200000).votes "1").length = 0 ∧
    ¬(12 : ℕ) = 0 ∧
    ((createReport (initialMState 259200000) "d" [] ⟨0, 0⟩ "" true "u"
        (1/4) 0).1.reports.getLast?).map (fun r => (r.voteCount, r.urgencyScore)) =
      some (0, (1/4 : ℚ) * 10) ∧
    ((createReport (initialMState 259200000) "d" [] ⟨0, 0⟩ "" true "u"
        (1/2) 0).1.reports.getLast?).map (fun r => (r.voteCount, r.urgencyScore)) =
      some (0, (1/2 : ℚ) * 10) ∧
    ¬((1/4 : ℚ) * 10 = (1/2 : ℚ) * 10) := by
  refine ⟨by rfl, by rfl, by decide, by rfl, by rfl, by norm_num⟩

/-- C4 amended: the vote-count invariant is restored by every vote —
after any successful mock vote, the voted report's vote count equals
the size of its voter set — and a freshly created report has vote count
0 equal to its empty voter set; the invariant does not hold of the
seeded initial state, and the mock urgency score is a creation-time
random placeholder, not a function of the vote count. -/
theorem mock_invariant_amended (s : MState) (rid uid : String)
    (hnv : uid ∉ votersOf s.votes rid) :
    (∃ s', mockVoteReport s rid uid = .ok s' ∧
      ∀ r', findMReport s'.reports rid = some r' →
        r'.voteCount = (votersOf s'.votes rid).length) ∧
    (∀ d ph loc addr pub u2 rand now,
      votersOf s.votes ("report-" ++ toString now) = [] →
      ((createReport s d ph loc addr pub u2 rand now).1.reports.getLast?).map
          (fun r => r.voteCount) =
        some (votersOf (createReport s d ph loc addr pub u2 rand now).1.votes
          ("report-" ++ toString now)).length) := by
  constructor
  · have hok : mockVoteReport s rid uid = Except.ok
        { reports := s.reports.map (fun r =>
            if r.id == rid
            then { r with voteCount := (votersOf s.votes rid ++ [uid]).length }
            else r),
          votes := setVotes s.votes rid (votersOf s.votes rid ++ [uid]) } := by
      simp only [mockVoteReport]
      rw [if_neg hnv]
    refine ⟨_, hok, ?_⟩
    intro r' hr'
    unfold findMReport at hr'
    simp only at hr'
    have hgen := find?_map_update_by s.reports (fun x => x.id) rid
      (fun r => { r with voteCount := (votersOf s.votes rid ++ [uid]).length })
      (fun x => rfl)
    simp only at hgen
    rw [hgen] at hr'
    rw [votersOf_setVotes]
    cases hf : s.reports.find? (fun r => r.id == rid) with
    | none => rw [hf] at hr'; cases hr'
    | some r0 =>
      rw [hf] at hr'
      injection hr' with h2
      subst h2
      rfl
  · intro d ph loc addr pub u2 rand now hfresh
    simp [createReport, List.getLast?_concat, hfresh]

/-- Witness for the amended C4 theorem: the first vote on seeded report
`1` of the initial mock store. -/
theorem mock_invariant_amended_witness :
    (∃ s', mockVoteReport (initialMState 259200000) "1" "u" = .ok s' ∧
      ∀ r', findMReport s'.reports "1" = some r' →
        r'.voteCount = (votersOf s'.votes "1").length) ∧
    (∀ d ph loc addr pub u2 rand now,
      votersOf (initialMState 259200000).votes ("report-" ++ toString now) = [] →
      ((createReport (initialMState 259200000) d ph loc addr pub u2
          rand now).1.reports.getLast?).map (fun r => r.voteCount) =
        some (votersOf (createReport (initialMState 259200000) d ph loc addr pub u2
          rand now).1.votes ("report-" ++ toString now)).length) :=
  mock_invariant_amended (initialMState 259200000) "1" "u" (by decide)

/-- C10: for a report id not present in the store, the mock
`updateReportStatus` completes without raising any error (it does not
report NotFound) and leaves the store entirely unchanged. -/
theorem updateReportStatus_missing_id (s : MState) (rid : String)
    (status : Status) (now : ℕ) (h : ∀ r ∈ s.reports, r.id ≠ rid) :
    updateReportStatus s rid status now = .ok s := by
  unfold updateReportStatus
  have hmap : ∀ rs : List MReport, (∀ r ∈ rs, r.id ≠ rid) →
      rs.map (fun r =>
        if r.id == rid then { r with status := status, updatedAt := now } else r)
        = rs := by
    intro rs
    induction rs with
    | nil => intro _; rfl
    | cons a tl ih =>
      intro hall
      rw [List.map_cons, ih (fun r hr => hall r (List.mem_cons_of_mem _ hr))]
      have ha : ¬((a.id == rid) = true) := by
        simpa using hall a (List.mem_cons_self _ _)
      rw [if_neg ha]
  rw [hmap s.reports h]

/-- Witness for C10: updating a nonexistent id on the initial store. -/
theorem updateReportStatus_missing_id_witness :
    updateReportStatus (initialMState 259200000) "nope" .resolved 5 =
      .ok (initialMState 259200000) :=
  updateReportStatus_missing_id _ "nope" .resolved 5 (by decide)

/-!
## Report creation (`NewReportScreen.handleSubmit` + mock `createReport`)
-/

/-- Validation failures of `handleSubmit`. -/
inductive CreateErr
  | emptyDescription
  | missingLocation
  | notLoggedIn
deriving DecidableEq

/-- JS `String.prototype.trim()`: drop whitespace from both ends,
modelled structurally over the character list so that concrete
instances evaluate in the kernel. -/
def jsTrim (s : String) : String :=
  String.mk (((s.data.dropWhile Char.isWhitespace).reverse.dropWhile
    Char.isWhitespace).reverse)

/-- The `handleSubmit` flow of `NewReportScreen`: reject an empty
trimmed description, a missing location, or a missing user, then call
the mock `createReport` with the trimmed description and no photo
URLs. -/
def handleSubmit (s : MState) (description : String) (location : Option Coords)
    (addressText : String) (isPublic : Bool) (user : Option String)
    (rand : ℚ) (now : ℕ) : Except CreateErr (MState × String) :=
  if jsTrim description = "" then .error .emptyDescription
  else
    match location with
    | none => .error .missingLocation
    | some loc =>
      match user with
      | none => .error .notLoggedIn
      | some uid =>
        .ok (createReport s (jsTrim description) [] loc addressText isPublic uid
          rand now)

/-- C9 counterexample: a successful creation stores the placeholder
urgency score `rand * 10` — at the concrete draw 1/2 the stored score
is 5, not 50 (for any draw it lies below 10). -/
theorem createReport_score_counterexample :
    (handleSubmit (initialMState 259200000) "Broken light" (some ⟨0, 0⟩) "" true
        (some "u") (1/2) 0).map (fun p =>
          (p.1.reports.getLast?).map (fun r => (r.status, r.voteCount, r.urgencyScore)))
      = .ok (some (Status.new, 0, (1/2 : ℚ) * 10)) ∧
    ¬((1/2 : ℚ) * 10 = 50) :=
  ⟨rfl, by norm_num⟩

/-- C9 amended: `create` fails with a validation error when the trimmed
description is empty or the location is missing; on success it returns
the id `report-<now>` and the stored report has status `new` and vote
count 0, with the placeholder urgency score `rand * 10` instead of 50
(50 is what the `computeUrgency` Cloud Function assigns at vote count 0
for a Firestore-backed creation). -/
theorem handleSubmit_spec (s : MState) (d : String) (loc : Option Coords)
    (addr : String) (pub : Bool) (u : Option String) (rand : ℚ) (now : ℕ) :
    (jsTrim d = "" → handleSubmit s d loc addr pub u rand now = .error .emptyDescription) ∧
    (jsTrim d ≠ "" → loc = none →
      handleSubmit s d loc addr pub u rand now = .error .missingLocation) ∧
    (∀ c uid, jsTrim d ≠ "" → loc = some c → u = some uid →
      ∃ s', handleSubmit s d loc addr pub u rand now =
          .ok (s', "report-" ++ toString now) ∧
        (s'.reports.getLast?).map (fun r => (r.status, r.voteCount, r.urgencyScore)) =
          some (Status.new, 0, rand * 10)) := by
  refine ⟨?_, ?_, ?_⟩
  · intro h
    simp [handleSubmit, h]
  · intro h hloc
    simp [handleSubmit, h, hloc]
  · intro c uid h hloc hu
    subst hloc hu
    refine ⟨(createReport s (jsTrim d) [] c addr pub uid rand now).1, ?_, ?_⟩
    · simp [handleSubmit, h, createReport]
    · simp only [createReport]
      rw [List.getLast?_concat]
      rfl

/-- Witness for the amended C9 theorem: the three outcomes at concrete
inputs on the initial store. -/
theorem handleSubmit_spec_witness :
    handleSubmit (initialMState 259200000) "   " (some ⟨0, 0⟩) "" true (some "u")
      (1/2) 7 = .error .emptyDescription ∧
    handleSubmit (initialMState 259200000) "Broken light" none "" true (some "u")
      (1/2) 7 = .error .missingLocation ∧
    (∃ s', handleSubmit (initialMState 259200000) "Broken light" (some ⟨0, 0⟩) ""
        true (some "u") (1/2) 7 = .ok (s', "report-" ++ toString 7) ∧
      (s'.reports.getLast?).map (fun r => (r.status, r.voteCount, r.urgencyScore)) =
        some (Status.new, 0, (1/2 : ℚ) * 10)) := by
  refine ⟨?_, ?_, ?_⟩
  · exact (handleSubmit_spec (initialMState 259200000) "   " (some ⟨0, 0⟩) "" true
      (some "u") (1/2) 7).1 (by decide)

  · exact (handleSubmit_spec (initialMState 259200000) "Broken light" none "" true
      (some "u") (1/2) 7).2.1 (by decide) rfl
  · exact (handleSubmit_spec (initialMState 259200000) "Broken light" (some ⟨0, 0⟩) ""
      true (some "u") (1/2) 7).2.2 ⟨0, 0⟩ "u" (by decide) rfl rfl

/-!
## Status update authorization (Firestore security rules + `updateReportStatus`)

The Firestore rules allow `update` on `reports/{reportId}` for the
author (`resource.data.userId == request.auth.uid`) and for any user
whose `users` document carries `role == 'admin'`; every other caller is
denied and the document stays unchanged.  `setStatus` is the
`updateReportStatus` mutation guarded by that rule (Firestore rejects
an update of a missing document).
-/

/-- Role of a user (`users` collection `role` field). -/
inductive Role
  | user
  | admin
deriving DecidableEq

/-- Admin check of the Firestore rules: the caller's `users` document
exists and carries `role == 'admin'`. -/
def isAdmin (users : List (String × Role)) (uid : String) : Bool :=
  match (users.find? (fun p => p.1 == uid)).map (fun p => p.2) with
  | some Role.admin => true
  | _ => false

/-- Update authorization on `reports/{reportId}` from the Firestore
rules: the author or any admin. -/
def canUpdateReport (users : List (String × Role)) (caller : String)
    (r : MReport) : Bool :=
  (r.userId == caller) || isAdmin users caller

/-- Errors surfaced by a rules-guarded status update. -/
inductive SErr
  | notFound
  | permissionDenied
deriving DecidableEq

/-- The `setStatus` operation: the mock `updateReportStatus` mutation
guarded by the Firestore update rule. -/
def setStatus (users : List (String × Role)) (s : MState) (caller rid : String)
    (status : Status) (now : ℕ) : Except SErr MState :=
  match findMReport s.reports rid with
  | none => .error .notFound
  | some r =>
    if canUpdateReport users caller r then
      .ok { s with reports := s.reports.map (fun x =>
        if x.id == rid then { x with status := status, updatedAt := now } else x) }
    else .error .permissionDenied

/-- C5: when the target report exists, a `setStatus` call by a caller
who is neither the report's author nor an admin fails with
`PermissionDenied` (no new state is produced, so the report is
unchanged); a call by the author or by any admin succeeds and sets the
report's status to the new value. -/
theorem setStatus_found (users : List (String × Role)) (s : MState)
    (caller rid : String) (status : Status) (now : ℕ) (r : MReport)
    (hr : findMReport s.reports rid = some r) :
    setStatus users s caller rid status now =
      if canUpdateReport users caller r then
        .ok { s with reports := s.reports.map (fun x =>
          if x.id == rid then { x with status := status, updatedAt := now } else x) }
      else .error .permissionDenied := by
  unfold setStatus
  rw [hr]

theorem setStatus_spec (users : List (String × Role)) (s : MState)
    (caller rid : String) (status : Status) (now : ℕ) (r : MReport)
    (hr : findMReport s.reports rid = some r) :
    (r.userId ≠ caller → isAdmin users caller = false →
      setStatus users s caller rid status now = .error .permissionDenied) ∧
    (r.userId = caller ∨ isAdmin users caller = true →
      ∃ s', setStatus users s caller rid status now = .ok s' ∧
        (findMReport s'.reports rid).map (fun x => x.status) = some status) := by
  constructor
  · intro hne hadmin
    have hcan : canUpdateReport users caller r = false := by
      simp [canUpdateReport, hadmin, hne]
    rw [setStatus_found users s caller rid status now r hr, if_neg (by simp [hcan])]
  · intro hor
    have hcan : canUpdateReport users caller r = true := by
      rcases hor with h1 | h1
      · simp [canUpdateReport, h1]
      · simp [canUpdateReport, h1]
    have hok : setStatus users s caller rid status now = Except.ok
        { s with reports := s.reports.map (fun x =>
            if x.id == rid
            then { x with status := status, updatedAt := now }
            else x) } := by
      rw [setStatus_found users s caller rid status now r hr, if_pos (by simp [hcan])]
    refine ⟨_, hok, ?_⟩
    have hgen := find?_map_update_by s.reports (fun x => x.id) rid
      (fun x => { x with status := status, updatedAt := now }) (fun x => rfl)
    simp only at hgen
    unfold findMReport
    simp only
    rw [hgen]
    unfold findMReport at hr
    rw [hr]
    rfl

/-- User role documents used in the C5 witness. -/
def sampleRoleUsers : List (String × Role) :=
  [("test-user", .user), ("boss", .admin), ("rando", .user)]

/-- Witness for C5: on the initial mock store, `rando` (neither author
nor admin) is denied; admin `boss` moves report `1` to `in_progress`. -/
theorem setStatus_spec_witness :
    setStatus sampleRoleUsers (initialMState 259200000) "rando" "1"
      .in_progress 5 = .error .permissionDenied ∧
    (∃ s', setStatus sampleRoleUsers (initialMState 259200000) "boss" "1"
        .in_progress 5 = .ok s' ∧
      (findMReport s'.reports "1").map (fun x => x.status) = some .in_progress) := by
  obtain ⟨r, hr, hu⟩ : ∃ r, findMReport (initialMState 259200000).reports "1" =
      some r ∧ r.userId = "test-user" := ⟨_, rfl, rfl⟩
  constructor
  · exact (setStatus_spec sampleRoleUsers (initialMState 259200000) "rando" "1"
      .in_progress 5 r hr).1 (by rw [hu]; decide) (by decide)
  · exact (setStatus_spec sampleRoleUsers (initialMState 259200000) "boss" "1"
      .in_progress 5 r hr).2 (Or.inr (by decide))

end Municipality
